import Mathlib

/-!
Shallow embedding of the monthly orders pipeline
(`dags/monthly_orders_insert.py`): an Airflow DAG issuing five Snowflake SQL
statements in a fixed order:

  start → RUN_INSERT_ORDERS → RUN_INSERT_CUSTOMERS → RUN_INSERT_PRODUCTS
        → RUN_INSERT_GEOGRAPHY → RUN_INSERT_FACT_ORDER → end

Tables are modelled as lists of rows (bag semantics, insertion order = append
order); each SQL statement becomes a pure function from the old table states
to the new state of its target table.  Dates are `(year, month, day)` triples
of naturals; `TRY_TO_DATE(s, 'DD-MM-YYYY')` becomes an `Option`-returning
parser; calendar months are encoded as the natural `YYYYMM = year * 100 +
month`, matching the `TO_CHAR(..., 'YYYYMM')` keys the SQL joins on.
-/

/-- A calendar date, `(year, month, day)`. -/
abbrev DateYMD := Nat × Nat × Nat

/-- Gregorian leap-year test, as used by the warehouse date validation. -/
def isLeapYear (y : Nat) : Bool :=
  y % 4 == 0 && (y % 100 != 0 || y % 400 == 0)

/-- Days in a month of a given year. -/
def daysInMonth (y m : Nat) : Nat :=
  if m == 2 then (if isLeapYear y then 29 else 28)
  else if m == 4 || m == 6 || m == 9 || m == 11 then 30
  else 31

/-- Split a character list at every occurrence of the separator. -/
def splitOnChar : List Char → Char → List (List Char)
  | [], _ => [[]]
  | c :: cs, sep =>
    match splitOnChar cs sep with
    | [] => [[]]
    | f :: fs => if c == sep then [] :: f :: fs else (c :: f) :: fs

/-- Decimal value of a digit string. -/
def digitsToNat (l : List Char) : Nat :=
  l.foldl (fun n c => n * 10 + (c.toNat - (48 : Nat))) 0

/-- A nonempty all-digit character list. -/
def isDigits (l : List Char) : Bool :=
  !l.isEmpty && l.all (fun c => c.isDigit)

/-- Model of `TRY_TO_DATE(s, 'DD-MM-YYYY')`: parse `s` as day-month-year separated by
`-` (day and month 1–2 digits, year 4 digits), validating the calendar date;
`none` models SQL `NULL` on parse failure. -/
def parseDMY (s : String) : Option DateYMD :=
  match splitOnChar s.data ('-') with
  | [ds, ms, ys] =>
    if isDigits ds && ds.length ≤ 2 && isDigits ms && ms.length ≤ 2
        && isDigits ys && ys.length == 4 then
      let d := digitsToNat ds
      let m := digitsToNat ms
      let y := digitsToNat ys
      if 1 ≤ m && m ≤ 12 && 1 ≤ d && d ≤ daysInMonth y m then
        some (y, m, d)
      else none
    else none
  | _ => none

/-- Encoding of `TO_CHAR(date, 'YYYYMM')` as a natural: `year * 100 + month`. -/
def ymOf (d : DateYMD) : Nat := d.1 * 100 + d.2.1

/-- Value of `DATE_TRUNC('MONTH', ADD_MONTHS(CURRENT_DATE, -1))` as a `YYYYMM` key,
given the execution date's year and month. -/
def prevMonthYM (y m : Nat) : Nat :=
  if m ≤ 1 then (y - 1) * 100 + 12 else y * 100 + (m - 1)

/-- Value of `DATE_TRUNC('MONTH', TO_DATE(tbl_dt::STRING, 'YYYYMMDD'))` as a `YYYYMM`
key: for a valid `YYYYMMDD` numeral `t` the year is `t / 10000` and the month
`(t / 100) % 100`, so the truncated month is `t / 100`.  (An invalid `tbl_dt`
would abort the SQL statement; such rows are outside the model.) -/
def tblDtMonth (t : Nat) : Nat := t / 100

/-- Character class kept by
`REGEXP_REPLACE(x, '[^a-zA-Z0-9\s\.,-]', '')`: ASCII letters, digits,
whitespace (the regex `\s` class), period, comma, hyphen. -/
def isAllowedChar (c : Char) : Bool :=
  (('a' ≤ c && c ≤ 'z') || ('A' ≤ c && c ≤ 'Z') || ('0' ≤ c && c ≤ '9'))
  || (c == ' ' || c == '\t' || c == '\n' || c == '\r' || c == '\x0b' || c == '\x0c')
  || c == '.' || c == ',' || c == '-'

/-- Model of `REGEXP_REPLACE(x, '[^a-zA-Z0-9\s\.,-]', '')`: delete every character not
in the allowed class. -/
def sanitize (s : String) : String :=
  ⟨s.data.filter isAllowedChar⟩

/-- A row of the staging table `STG.raw_data.ORDERS`.  Free-text columns are
strings; numeric measures are integers; `tbl_dt` is the `YYYYMMDD` ingestion
batch marker. -/
structure StagingRow where
  rowID : Nat
  orderID : String
  orderDate : String
  shipDate : String
  shipMode : String
  customerID : String
  customerName : String
  segment : String
  country : String
  city : String
  state : String
  postalcode : String
  region : String
  productID : String
  category : String
  productName : String
  sales : Int
  quantity : Int
  discount : Int
  profit : Int
  tbl_dt : Nat
  ingested_at : String
  file_name : String
  offset_id : Nat
deriving DecidableEq

/-- A row of the cleaned-orders table `Transformed.public.ORDERS`, exactly the
select list of `RUN_INSERT_ORDERS` (dates parsed, strings sanitized,
`SubCategory` resolved from the mapping). -/
structure CleanedRow where
  rowID : Nat
  orderID : String
  orderDate : Option DateYMD
  shipDate : Option DateYMD
  shipMode : String
  customerID : String
  segment : String
  country : String
  productID : String
  sales : Int
  quantity : Int
  discount : Int
  profit : Int
  postalcode : String
  customerName : String
  city : String
  state : String
  region : String
  category : String
  subCategory : String
  productName : String
  actual_date : Option DateYMD
  tbl_dt : Nat
  ingested_at : String
  file_name : String
  offset_id : Nat
deriving DecidableEq

/-- A row of the read-only mapping table
`transformed.public.PRODUCT_SUBCATEGORY_MAP`. -/
structure SubcatMapRow where
  productname : String
  subcategory : String
deriving DecidableEq

/-- Value of `TO_CHAR(TRY_TO_DATE(OrderDate, 'DD-MM-YYYY'), 'YYYYMM')`: the business
month of a staging row, `none` when the order date does not parse (SQL
`NULL`, which never joins). -/
def businessMonth (r : StagingRow) : Option Nat :=
  (parseDMY r.orderDate).map ymOf

/-- The `latest_files` CTE, read at one business-month group key `bm`:
`MAX(tbl_dt)` over staging rows whose `tbl_dt` month is the execution month
minus one and whose business month is `bm`; `none` when the group is empty
(no such CTE row exists). -/
def latest_files (staging : List StagingRow) (execY execM : Nat) (bm : Nat) :
    Option Nat :=
  ((staging.filter (fun r =>
      tblDtMonth r.tbl_dt == prevMonthYM execY execM
        && businessMonth r == some bm)).map (fun r => r.tbl_dt)).max?

/-- The admission predicate of `RUN_INSERT_ORDERS` on a staging row: the join
to `latest_files` on `(business_month, tbl_dt = max_tbl_dt)` succeeds, and the
`WHERE` clause `Profit > 0 AND TRY_TO_DATE(OrderDate, 'DD-MM-YYYY') IS NOT
NULL` holds. -/
def admissibleRow (staging : List StagingRow) (execY execM : Nat)
    (r : StagingRow) : Bool :=
  (match businessMonth r with
   | some bm => latest_files staging execY execM bm == some r.tbl_dt
   | none => false)
  && decide (r.profit > 0)
  && (parseDMY r.orderDate).isSome

/-- The select list of `RUN_INSERT_ORDERS` applied to one staging row, with
`sub` the already-resolved `SubCategory` value. -/
def cleanRow (r : StagingRow) (sub : String) : CleanedRow :=
  { rowID := r.rowID
    orderID := r.orderID
    orderDate := parseDMY r.orderDate
    shipDate := parseDMY r.shipDate
    shipMode := r.shipMode
    customerID := r.customerID
    segment := r.segment
    country := r.country
    productID := r.productID
    sales := r.sales
    quantity := r.quantity
    discount := r.discount
    profit := r.profit
    postalcode := r.postalcode
    customerName := sanitize r.customerName
    city := sanitize r.city
    state := sanitize r.state
    region := sanitize r.region
    category := sanitize r.category
    subCategory := sub
    productName := sanitize r.productName
    actual_date := parseDMY r.orderDate
    tbl_dt := r.tbl_dt
    ingested_at := r.ingested_at
    file_name := r.file_name
    offset_id := r.offset_id }

/-- The `LEFT JOIN transformed.public.PRODUCT_SUBCATEGORY_MAP m ON
REGEXP_REPLACE(o.ProductName, ...) = m.PRODUCTNAME` with
`COALESCE(m.SUBCATEGORY, 'Unmapped')`: no matching mapping row yields one
output row with the sentinel, k matching rows yield k output rows. -/
def leftJoinSubcat (subMap : List SubcatMapRow) (r : StagingRow) :
    List CleanedRow :=
  match subMap.filter (fun m => m.productname == sanitize r.productName) with
  | [] => [cleanRow r ("Unmapped")]
  | ms => ms.map (fun m => cleanRow r m.subcategory)

/-- Step `RUN_INSERT_ORDERS`: `INSERT INTO Transformed.public.ORDERS SELECT ...`;
appends to the cleaned-orders table every admitted staging row, cleaned and
enriched.  The function is total: excluded rows produce no rejection record,
diagnostic, or error. -/
def RUN_INSERT_ORDERS (tbl : List CleanedRow) (staging : List StagingRow)
    (execY execM : Nat) (subMap : List SubcatMapRow) : List CleanedRow :=
  tbl ++ (staging.filter (admissibleRow staging execY execM)).flatMap
    (leftJoinSubcat subMap)

/-- A row of the customer dimension `transformed.public.customers`: the
columns inserted by `RUN_INSERT_CUSTOMERS`. -/
structure CustomerRow where
  customerid : String
  customername : String
  segment : String
deriving DecidableEq

/-- A row of the product dimension `transformed.public.products`: the columns
inserted by `RUN_INSERT_PRODUCTS`. -/
structure ProductRow where
  productid : String
  category : String
  subcategory : String
  productname : String
deriving DecidableEq

/-- The five natural-key columns of the geography dimension. -/
structure GeoCols where
  country : String
  city : String
  state : String
  postalcode : String
  region : String
deriving DecidableEq

/-- A row of `transformed.public.geography`: the surrogate key
`geography_id` (assigned by the warehouse, not listed in the MERGE's insert
columns) plus the five natural-key columns. -/
structure GeoRow where
  geography_id : Nat
  cols : GeoCols
deriving DecidableEq

/-- A row of the fact table `transformed.public.fact_orders`: exactly the
columns of `RUN_INSERT_FACT_ORDER`'s `USING` subquery / insert list. -/
structure FactRow where
  orderid : String
  orderdate : Option DateYMD
  shipdate : Option DateYMD
  shipmode : String
  sales : Int
  quantity : Int
  discount : Int
  profit : Int
  customerid : String
  productid : String
  geoid : Nat
deriving DecidableEq

/-- Subquery `SELECT DISTINCT customerid, customername, segment FROM
transformed.public.orders`. -/
def customerSource (os : List CleanedRow) : List CustomerRow :=
  (os.map (fun o =>
    { customerid := o.customerID
      customername := o.customerName
      segment := o.segment })).dedup

/-- Step `RUN_INSERT_CUSTOMERS`: `MERGE INTO customers ... ON c.customerid =
s.customerid WHEN NOT MATCHED THEN INSERT`.  Every distinct source triple
whose `customerid` matches no existing target row is inserted; there is no
`WHEN MATCHED` branch, so nothing is updated or deleted. -/
def RUN_INSERT_CUSTOMERS (cs : List CustomerRow) (os : List CleanedRow) :
    List CustomerRow :=
  cs ++ (customerSource os).filter
    (fun s => !cs.any (fun c => c.customerid == s.customerid))

/-- Subquery `SELECT DISTINCT productid, category, subcategory, productname FROM
transformed.public.orders`. -/
def productSource (os : List CleanedRow) : List ProductRow :=
  (os.map (fun o =>
    { productid := o.productID
      category := o.category
      subcategory := o.subCategory
      productname := o.productName })).dedup

/-- Step `RUN_INSERT_PRODUCTS`: `MERGE INTO products ... ON p.productid =
s.productid WHEN NOT MATCHED THEN INSERT`. -/
def RUN_INSERT_PRODUCTS (ps : List ProductRow) (os : List CleanedRow) :
    List ProductRow :=
  ps ++ (productSource os).filter
    (fun s => !ps.any (fun p => p.productid == s.productid))

/-- Subquery `SELECT DISTINCT country, city, state, postalcode, region FROM
transformed.public.orders`. -/
def geographySource (os : List CleanedRow) : List GeoCols :=
  (os.map (fun o =>
    { country := o.country
      city := o.city
      state := o.state
      postalcode := o.postalcode
      region := o.region })).dedup

/-- Largest surrogate key present in the geography table (0 when empty);
fresh `geography_id` values are assigned above it. -/
def maxGeoId (gs : List GeoRow) : Nat :=
  (gs.map (fun g => g.geography_id)).foldr max 0

/-- Step `RUN_INSERT_GEOGRAPHY`: `MERGE INTO geography ... ON` the five-column
natural key `WHEN NOT MATCHED THEN INSERT (country, city, state, postalcode,
region)`; the surrogate `geography_id` of an inserted row is assigned by the
warehouse's sequence, modelled as consecutive values above `maxGeoId`. -/
def RUN_INSERT_GEOGRAPHY (gs : List GeoRow) (os : List CleanedRow) :
    List GeoRow :=
  gs ++ ((geographySource os).filter
      (fun s => !gs.any (fun g => g.cols == s))).enum.map
    (fun p => { geography_id := maxGeoId gs + 1 + p.1, cols := p.2 })

/-- The `USING` subquery of `RUN_INSERT_FACT_ORDER` restricted to one
cleaned-orders row: inner-join it to the three dimensions on the natural
keys, producing one candidate fact row per matching
(customer, product, geography) combination. -/
def factSourceRow (o : CleanedRow) (cs : List CustomerRow)
    (ps : List ProductRow) (gs : List GeoRow) : List FactRow :=
  (cs.filter (fun c => o.customerID == c.customerid)).flatMap (fun c =>
    (ps.filter (fun p => o.productID == p.productid)).flatMap (fun p =>
      (gs.filter (fun g =>
          o.country == g.cols.country && o.city == g.cols.city
            && o.state == g.cols.state && o.postalcode == g.cols.postalcode
            && o.region == g.cols.region)).map (fun g =>
        { orderid := o.orderID
          orderdate := o.orderDate
          shipdate := o.shipDate
          shipmode := o.shipMode
          sales := o.sales
          quantity := o.quantity
          discount := o.discount
          profit := o.profit
          customerid := c.customerid
          productid := p.productid
          geoid := g.geography_id })))

/-- The full `USING` subquery of `RUN_INSERT_FACT_ORDER`: cleaned orders
inner-joined to customers, products and geography. -/
def factSource (os : List CleanedRow) (cs : List CustomerRow)
    (ps : List ProductRow) (gs : List GeoRow) : List FactRow :=
  os.flatMap (fun o => factSourceRow o cs ps gs)

/-- Step `RUN_INSERT_FACT_ORDER`: `MERGE INTO fact_orders f USING (...) s ON
f.orderid = s.orderid WHEN NOT MATCHED THEN INSERT`. -/
def RUN_INSERT_FACT_ORDER (fs : List FactRow) (os : List CleanedRow)
    (cs : List CustomerRow) (ps : List ProductRow) (gs : List GeoRow) :
    List FactRow :=
  fs ++ (factSource os cs ps gs).filter
    (fun s => !fs.any (fun f => f.orderid == s.orderid))

/-- The warehouse tables this pipeline writes. -/
structure Warehouse where
  orders : List CleanedRow
  customers : List CustomerRow
  products : List ProductRow
  geography : List GeoRow
  fact_orders : List FactRow
deriving DecidableEq

/-- One run of the DAG `monthly_orders_insert` at execution date
`(execY, execM)`: the five SQL steps in their fixed sequential order
(`start` and `end` are no-ops). -/
def runPipeline (w : Warehouse) (staging : List StagingRow)
    (execY execM : Nat) (subMap : List SubcatMapRow) : Warehouse :=
  let o1 := RUN_INSERT_ORDERS w.orders staging execY execM subMap
  let c1 := RUN_INSERT_CUSTOMERS w.customers o1
  let p1 := RUN_INSERT_PRODUCTS w.products o1
  let g1 := RUN_INSERT_GEOGRAPHY w.geography o1
  let f1 := RUN_INSERT_FACT_ORDER w.fact_orders o1 c1 p1 g1
  { orders := o1, customers := c1, products := p1, geography := g1
    fact_orders := f1 }

/-! ### Sample data used by the concrete witnesses -/

/-- A staging row of business month March 2024 in the ingestion batch
`tbl_dt = 20240331`. -/
def stgA : StagingRow :=
  { rowID := 1, orderID := "O1", orderDate := "15-03-2024"
    shipDate := "18-03-2024", shipMode := "Second Class", customerID := "C1"
    customerName := "Alice Smith", segment := "Consumer", country := "USA"
    city := "Austin", state := "Texas", postalcode := "73301"
    region := "South", productID := "P1", category := "Furniture"
    productName := "Chair #1!", sales := 200, quantity := 2, discount := 0
    profit := 100, tbl_dt := 20240331, ingested_at := "2024-03-31T00:00:00"
    file_name := "orders_20240331.csv", offset_id := 1 }

/-- A staging row of the same business month in the earlier batch
`tbl_dt = 20240305`. -/
def stgB : StagingRow :=
  { stgA with
      rowID := 2
      orderDate := "10-03-2024"
      tbl_dt := 20240305
      profit := 50 }

/-- A staging row with non-positive profit. -/
def stgNeg : StagingRow :=
  { stgA with
      rowID := 3
      profit := -5 }

/-- A two-batch staging table for business month March 2024. -/
def stgEx : List StagingRow := [stgA, stgB]

/-! ### Helper lemmas -/

/-- On naturals, `List.max?` returns a member that bounds the list. -/
theorem natMaxSpec (l : List Nat) (a : Nat) (h : l.max? = some a) :
    a ∈ l ∧ ∀ b ∈ l, b ≤ a := by
  rw [List.max?_eq_some_iff] at h
  · exact h
  · exact fun a => Nat.le_refl a
  · intro a b; omega
  · intro a b c; omega

/-- What a populated `latest_files` group says: its `max_tbl_dt` belongs to
the execution month minus one, is realised by some staging row of the group,
and bounds every batch of the group. -/
theorem latest_files_spec (staging : List StagingRow) (execY execM bm mx : Nat)
    (h : latest_files staging execY execM bm = some mx) :
    tblDtMonth mx = prevMonthYM execY execM
    ∧ (∃ r ∈ staging, r.tbl_dt = mx ∧ businessMonth r = some bm)
    ∧ ∀ r ∈ staging, tblDtMonth r.tbl_dt = prevMonthYM execY execM →
        businessMonth r = some bm → r.tbl_dt ≤ mx := by
  unfold latest_files at h
  obtain ⟨hmem, hub⟩ := natMaxSpec _ _ h
  simp only [List.mem_map, List.mem_filter, Bool.and_eq_true, beq_iff_eq]
    at hmem
  obtain ⟨r, ⟨hr, hmo, hbm⟩, hrt⟩ := hmem
  refine ⟨hrt ▸ hmo, ⟨r, hr, hrt, hbm⟩, ?_⟩
  intro r' hr' hmo' hbm'
  exact hub r'.tbl_dt (by
    simp only [List.mem_map, List.mem_filter, Bool.and_eq_true, beq_iff_eq]
    exact ⟨r', ⟨hr', hmo', hbm'⟩, rfl⟩)

/-- Unfolding of the admission predicate of `RUN_INSERT_ORDERS`. -/
theorem admissibleRow_iff (staging : List StagingRow) (execY execM : Nat)
    (r : StagingRow) :
    admissibleRow staging execY execM r = true ↔
      ∃ bm, businessMonth r = some bm
        ∧ latest_files staging execY execM bm = some r.tbl_dt
        ∧ 0 < r.profit := by
  unfold admissibleRow
  cases h : businessMonth r with
  | none => simp [h]
  | some bm =>
    have hp : (parseDMY r.orderDate).isSome = true := by
      unfold businessMonth at h
      cases hq : parseDMY r.orderDate <;> simp [hq] at h ⊢
    simp [h, hp, Bool.and_eq_true, beq_iff_eq]

/-- Every row emitted by the subcategory left join for a staging row `r` is
`cleanRow r sub` for some resolved subcategory value. -/
theorem mem_leftJoinSubcat (subMap : List SubcatMapRow) (r : StagingRow)
    (x : CleanedRow) (hx : x ∈ leftJoinSubcat subMap r) :
    ∃ sub, x = cleanRow r sub := by
  unfold leftJoinSubcat at hx
  cases h : subMap.filter (fun m => m.productname == sanitize r.productName)
      with
  | nil =>
    rw [h] at hx
    simp only [List.mem_singleton] at hx
    exact ⟨("Unmapped"), hx⟩
  | cons a as =>
    rw [h] at hx
    simp only [List.mem_map] at hx
    obtain ⟨mr, _, heq⟩ := hx
    exact ⟨mr.subcategory, heq.symm⟩

/-- Membership in the output of `RUN_INSERT_ORDERS`. -/
theorem mem_RUN_INSERT_ORDERS (tbl : List CleanedRow)
    (staging : List StagingRow) (execY execM : Nat)
    (subMap : List SubcatMapRow) (x : CleanedRow) :
    x ∈ RUN_INSERT_ORDERS tbl staging execY execM subMap ↔
      x ∈ tbl ∨ ∃ r, r ∈ staging
        ∧ admissibleRow staging execY execM r = true
        ∧ x ∈ leftJoinSubcat subMap r := by
  unfold RUN_INSERT_ORDERS
  simp only [List.mem_append, List.mem_flatMap, List.mem_filter]
  constructor
  · rintro (h | ⟨r, ⟨hr, ha⟩, hx⟩)
    · exact Or.inl h
    · exact Or.inr ⟨r, hr, ha, hx⟩
  · rintro (h | ⟨r, hr, ha, hx⟩)
    · exact Or.inl h
    · exact Or.inr ⟨r, ⟨hr, ha⟩, hx⟩

/-! ### Claim theorems -/

/-- C1: every row loaded by the stable-month orders insert (beyond the rows
already in the cleaned-orders table) comes from an ingestion batch whose
`tbl_dt` month equals the execution month minus one
(`ADD_MONTHS(CURRENT_DATE, -1)`); no staging row of any other `tbl_dt` month
is loaded. -/
theorem orders_load_month_restriction (tbl : List CleanedRow)
    (staging : List StagingRow) (execY execM : Nat)
    (subMap : List SubcatMapRow) (x : CleanedRow)
    (hx : x ∈ RUN_INSERT_ORDERS tbl staging execY execM subMap) :
    x ∈ tbl ∨ tblDtMonth x.tbl_dt = prevMonthYM execY execM := by
  rcases (mem_RUN_INSERT_ORDERS tbl staging execY execM subMap x).1 hx with
    h | ⟨r, _, hadm, hjoin⟩
  · exact Or.inl h
  · right
    obtain ⟨sub, rfl⟩ := mem_leftJoinSubcat subMap r x hjoin
    obtain ⟨bm, _, hlf, _⟩ :=
      (admissibleRow_iff staging execY execM r).1 hadm
    exact (latest_files_spec staging execY execM bm r.tbl_dt hlf).1

/-- Witness for C1: on the concrete two-batch staging table, the cleaned row
produced from `stgA` carries the `tbl_dt` month March 2024, the execution
month (April 2024) minus one. -/
theorem orders_load_month_restriction_w :
    cleanRow stgA ("Unmapped") ∈ ([] : List CleanedRow)
      ∨ tblDtMonth (cleanRow stgA ("Unmapped")).tbl_dt = prevMonthYM 2024 4 :=
  orders_load_month_restriction [] stgEx 2024 4 []
    (cleanRow stgA ("Unmapped")) (by decide)

/-- C2: when a business-month group has `max_tbl_dt = mx`, every admitted row
of that group comes from the batch `mx`; a row of the group from any other
batch is inadmissible and survives no filter, and `mx` bounds every batch of
the group. -/
theorem orders_load_latest_batch (staging : List StagingRow)
    (execY execM bm mx : Nat)
    (hlf : latest_files staging execY execM bm = some mx) :
    (∀ r, admissibleRow staging execY execM r = true →
        businessMonth r = some bm → r.tbl_dt = mx)
    ∧ (∀ r, r ∈ staging → businessMonth r = some bm → r.tbl_dt ≠ mx →
        admissibleRow staging execY execM r = false
        ∧ r ∉ staging.filter (admissibleRow staging execY execM))
    ∧ (∀ r, r ∈ staging → tblDtMonth r.tbl_dt = prevMonthYM execY execM →
        businessMonth r = some bm → r.tbl_dt ≤ mx) := by
  have key : ∀ r, admissibleRow staging execY execM r = true →
      businessMonth r = some bm → r.tbl_dt = mx := by
    intro r hadm hbm
    obtain ⟨bm', hbm', hlf', _⟩ :=
      (admissibleRow_iff staging execY execM r).1 hadm
    rw [hbm] at hbm'
    cases hbm'
    rw [hlf] at hlf'
    exact (Option.some.injEq _ _ ▸ hlf').symm
  refine ⟨key, ?_, ?_⟩
  · intro r hr hbm hne
    have hfalse : admissibleRow staging execY execM r = false := by
      cases hadm : admissibleRow staging execY execM r
      · rfl
      · exact absurd (key r hadm hbm) hne
    exact ⟨hfalse, by simp [List.mem_filter, hfalse]⟩
  · intro r hr hmo hbm
    exact (latest_files_spec staging execY execM bm mx hlf).2.2 r hr hmo hbm

/-- Witness for C2: in the concrete staging table, the row of the earlier
March batch (`tbl_dt = 20240305`) is not admitted, the later batch
`20240331` being the group maximum. -/
theorem orders_load_latest_batch_w :
    admissibleRow stgEx 2024 4 stgB = false
      ∧ stgB ∉ stgEx.filter (admissibleRow stgEx 2024 4) :=
  (orders_load_latest_batch stgEx 2024 4 202403 20240331 (by decide)).2.1
    stgB (by decide) (by decide) (by decide)

/-- C3: a staging row whose `OrderDate`-derived month `bm` is such that no
`latest_files` group computed its batch's `max_tbl_dt` under `bm` (in
particular whenever the row's own group maximum is another batch) is excluded
from the cleaned-orders insert; the step is a total function into the new
table state, so no diagnostic, rejection record, or error is produced for the
row. -/
theorem month_mismatch_row_dropped (staging : List StagingRow)
    (execY execM : Nat) (r : StagingRow) (bm : Nat)
    (hbm : businessMonth r = some bm)
    (hne : latest_files staging execY execM bm ≠ some r.tbl_dt) :
    admissibleRow staging execY execM r = false
    ∧ r ∉ staging.filter (admissibleRow staging execY execM) := by
  have hfalse : admissibleRow staging execY execM r = false := by
    cases hadm : admissibleRow staging execY execM r
    · rfl
    · obtain ⟨bm', hbm', hlf', _⟩ :=
        (admissibleRow_iff staging execY execM r).1 hadm
      rw [hbm] at hbm'
      cases hbm'
      exact absurd hlf' hne
  exact ⟨hfalse, by simp [List.mem_filter, hfalse]⟩

/-- Witness for C3: the `stgB` row's business-month group `202403` computed
its maximum as batch `20240331`, not `stgB`'s batch `20240305`, so `stgB` is
dropped. -/
theorem month_mismatch_row_dropped_w :
    admissibleRow stgEx 2024 4 stgB = false
    ∧ stgB ∉ stgEx.filter (admissibleRow stgEx 2024 4) :=
  month_mismatch_row_dropped stgEx 2024 4 stgB 202403 (by decide) (by decide)

/-- C8: a staging row with non-positive profit, or whose `OrderDate` does not
parse as `DD-MM-YYYY`, is never admitted into the cleaned-orders insert; the
exclusion is silent (the step is a total function producing only the new
table state, no rejection record). -/
theorem filter_rejects_rows (staging : List StagingRow) (execY execM : Nat)
    (r : StagingRow)
    (h : r.profit ≤ 0 ∨ parseDMY r.orderDate = none) :
    admissibleRow staging execY execM r = false
    ∧ r ∉ staging.filter (admissibleRow staging execY execM) := by
  have hfalse : admissibleRow staging execY execM r = false := by
    rcases h with h | h
    · unfold admissibleRow
      simp [show ¬ (r.profit > 0) from by omega]
    · unfold admissibleRow businessMonth
      simp [h]
  exact ⟨hfalse, by simp [List.mem_filter, hfalse]⟩

/-- Witness for C8: the concrete row with `profit = -5` is rejected. -/
theorem filter_rejects_rows_w :
    admissibleRow stgEx 2024 4 stgNeg = false
    ∧ stgNeg ∉ stgEx.filter (admissibleRow stgEx 2024 4) :=
  filter_rejects_rows stgEx 2024 4 stgNeg (Or.inl (by decide))

/-- C9: every row loaded into cleaned-orders carries, in each of the six
free-text fields (customer name, city, state, region, category, product
name), the sanitized source value; and sanitization keeps exactly the
characters of the allowed class (letters, digits, whitespace, period, comma,
hyphen) — a character survives iff it occurred and is allowed. -/
theorem sanitized_fields :
    (∀ (tbl : List CleanedRow) (staging : List StagingRow)
        (execY execM : Nat) (subMap : List SubcatMapRow) (x : CleanedRow),
      x ∈ RUN_INSERT_ORDERS tbl staging execY execM subMap →
      x ∈ tbl ∨ ∃ r, r ∈ staging
        ∧ x.customerName = sanitize r.customerName
        ∧ x.city = sanitize r.city
        ∧ x.state = sanitize r.state
        ∧ x.region = sanitize r.region
        ∧ x.category = sanitize r.category
        ∧ x.productName = sanitize r.productName)
    ∧ (∀ (s : String) (c : Char),
        c ∈ (sanitize s).data ↔ (c ∈ s.data ∧ isAllowedChar c = true)) := by
  constructor
  · intro tbl staging execY execM subMap x hx
    rcases (mem_RUN_INSERT_ORDERS tbl staging execY execM subMap x).1 hx with
      h | ⟨r, hr, _, hjoin⟩
    · exact Or.inl h
    · obtain ⟨sub, rfl⟩ := mem_leftJoinSubcat subMap r x hjoin
      exact Or.inr ⟨r, hr, rfl, rfl, rfl, rfl, rfl, rfl⟩
  · intro s c
    show c ∈ s.data.filter isAllowedChar ↔ _
    exact List.mem_filter

/-- Witness for C9: the loaded row from `stgA` has each free-text field equal
to its sanitized source value. -/
theorem sanitized_fields_w :
    cleanRow stgA ("Unmapped") ∈ ([] : List CleanedRow)
      ∨ ∃ r, r ∈ stgEx
        ∧ (cleanRow stgA ("Unmapped")).customerName = sanitize r.customerName
        ∧ (cleanRow stgA ("Unmapped")).city = sanitize r.city
        ∧ (cleanRow stgA ("Unmapped")).state = sanitize r.state
        ∧ (cleanRow stgA ("Unmapped")).region = sanitize r.region
        ∧ (cleanRow stgA ("Unmapped")).category = sanitize r.category
        ∧ (cleanRow stgA ("Unmapped")).productName = sanitize r.productName :=
  sanitized_fields.1 [] stgEx 2024 4 [] (cleanRow stgA ("Unmapped"))
    (by decide)

/-- C6: the stable-month orders load is not idempotent: on the concrete
staging table `stgEx`, whose row `stgA` is admissible, running
`RUN_INSERT_ORDERS` twice for the same execution month appends the cleaned
row twice — the step is a plain `INSERT` with no key-based deduplication. -/
theorem orders_load_not_idempotent :
    admissibleRow stgEx 2024 4 stgA = true
    ∧ RUN_INSERT_ORDERS [] stgEx 2024 4 [] = [cleanRow stgA ("Unmapped")]
    ∧ RUN_INSERT_ORDERS (RUN_INSERT_ORDERS [] stgEx 2024 4 []) stgEx 2024 4 []
        = [cleanRow stgA ("Unmapped"), cleanRow stgA ("Unmapped")] := by
  refine ⟨by decide, by decide, by decide⟩

/-- C5: a full pipeline run only appends: every table of the warehouse state
after `runPipeline` is the old table followed by the newly inserted rows, so
every pre-existing row of cleaned-orders, customers, products, geography and
fact_orders is still present, unchanged and in place (each MERGE has only a
`WHEN NOT MATCHED` insert branch — nothing is updated or deleted). -/
theorem pipeline_appends_only (w : Warehouse) (staging : List StagingRow)
    (execY execM : Nat) (subMap : List SubcatMapRow) :
    ∃ no nc np ng nf,
      (runPipeline w staging execY execM subMap).orders = w.orders ++ no
      ∧ (runPipeline w staging execY execM subMap).customers
          = w.customers ++ nc
      ∧ (runPipeline w staging execY execM subMap).products
          = w.products ++ np
      ∧ (runPipeline w staging execY execM subMap).geography
          = w.geography ++ ng
      ∧ (runPipeline w staging execY execM subMap).fact_orders
          = w.fact_orders ++ nf :=
  ⟨_, _, _, _, _, rfl, rfl, rfl, rfl, rfl⟩

/-- C7: a cleaned-orders row whose customer id is absent from the customers
dimension, or whose product id is absent from products, or whose
(country, city, state, postalcode, region) tuple is absent from geography at
fact-merge time, contributes no candidate row to the fact merge's `USING`
subquery, and the step completes normally: with that order as sole input the
fact table is returned unchanged rather than the run failing. -/
theorem missing_dimension_drops_order (o : CleanedRow)
    (cs : List CustomerRow) (ps : List ProductRow) (gs : List GeoRow)
    (fs : List FactRow)
    (h : (∀ c ∈ cs, c.customerid ≠ o.customerID)
       ∨ (∀ p ∈ ps, p.productid ≠ o.productID)
       ∨ (∀ g ∈ gs, ¬(g.cols.country = o.country ∧ g.cols.city = o.city
            ∧ g.cols.state = o.state ∧ g.cols.postalcode = o.postalcode
            ∧ g.cols.region = o.region))) :
    factSourceRow o cs ps gs = []
    ∧ RUN_INSERT_FACT_ORDER fs [o] cs ps gs = fs := by
  have hrow : factSourceRow o cs ps gs = [] := by
    unfold factSourceRow
    rcases h with h | h | h
    · have hcs : cs.filter (fun c => o.customerID == c.customerid) = [] := by
        apply List.filter_eq_nil_iff.mpr
        intro c hc
        simp only [beq_iff_eq]
        exact fun he => h c hc he.symm
      simp [hcs]
    · have hps : ps.filter (fun p => o.productID == p.productid) = [] := by
        apply List.filter_eq_nil_iff.mpr
        intro p hp
        simp only [beq_iff_eq]
        exact fun he => h p hp he.symm
      simp [hps]
    · have hgs : gs.filter (fun g =>
          o.country == g.cols.country && o.city == g.cols.city
            && o.state == g.cols.state && o.postalcode == g.cols.postalcode
            && o.region == g.cols.region) = [] := by
        apply List.filter_eq_nil_iff.mpr
        intro g hg
        simp only [Bool.and_eq_true, beq_iff_eq]
        rintro ⟨⟨⟨⟨h1, h2⟩, h3⟩, h4⟩, h5⟩
        exact h g hg ⟨h1.symm, h2.symm, h3.symm, h4.symm, h5.symm⟩
      simp [hgs]
  refine ⟨hrow, ?_⟩
  unfold RUN_INSERT_FACT_ORDER factSource
  simp [hrow]

/-- Witness for C7: with empty dimension tables, the order cleaned from
`stgA` yields no fact candidate and the (empty) fact table is unchanged. -/
theorem missing_dimension_drops_order_w :
    factSourceRow (cleanRow stgA ("Unmapped")) [] [] [] = []
    ∧ RUN_INSERT_FACT_ORDER [] [cleanRow stgA ("Unmapped")] [] [] [] = [] :=
  missing_dimension_drops_order (cleanRow stgA ("Unmapped")) [] [] [] []
    (Or.inl (by decide))

/-- Variant of `stgA` with a different customer name spelling under the same
customer id. -/
def stgA2 : StagingRow :=
  { stgA with
      rowID := 7
      customerName := "Alicia Smith" }

/-- Variant of `stgA` with a different product name under the same product id. -/
def stgA3 : StagingRow :=
  { stgA with
      rowID := 8
      productName := "Chair #1 Deluxe" }

/-- A cleaned-orders table carrying two distinct (customername, segment)
combinations for one customer id. -/
def dupCustOrders : List CleanedRow :=
  [cleanRow stgA ("Unmapped"), cleanRow stgA2 ("Unmapped")]

/-- A cleaned-orders table carrying two distinct
(category, subcategory, productname) combinations for one product id. -/
def dupProdOrders : List CleanedRow :=
  [cleanRow stgA ("Unmapped"), cleanRow stgA3 ("Unmapped")]

/-- After one customers merge, every distinct source triple has its
customer id present in the target, so the second run's insert filter keeps
nothing. -/
theorem customers_second_filter_nil (cs : List CustomerRow)
    (os : List CleanedRow) :
    (customerSource os).filter
      (fun s => !(RUN_INSERT_CUSTOMERS cs os).any
        (fun c => c.customerid == s.customerid)) = [] := by
  apply List.filter_eq_nil_iff.mpr
  intro s hs
  have hany : (RUN_INSERT_CUSTOMERS cs os).any
      (fun c => c.customerid == s.customerid) = true := by
    unfold RUN_INSERT_CUSTOMERS
    rw [List.any_append]
    by_cases hm : cs.any (fun c => c.customerid == s.customerid) = true
    · simp [hm]
    · have hmem : s ∈ (customerSource os).filter
          (fun t => !cs.any (fun c => c.customerid == t.customerid)) :=
        List.mem_filter.mpr ⟨hs, by simp [hm]⟩
      have : ((customerSource os).filter
          (fun t => !cs.any (fun c => c.customerid == t.customerid))).any
            (fun c => c.customerid == s.customerid) = true :=
        List.any_eq_true.mpr ⟨s, hmem, by simp⟩
      simp [this]
  simp [hany]

/-- After one products merge, every distinct source tuple has its product id
present in the target. -/
theorem products_second_filter_nil (ps : List ProductRow)
    (os : List CleanedRow) :
    (productSource os).filter
      (fun s => !(RUN_INSERT_PRODUCTS ps os).any
        (fun p => p.productid == s.productid)) = [] := by
  apply List.filter_eq_nil_iff.mpr
  intro s hs
  have hany : (RUN_INSERT_PRODUCTS ps os).any
      (fun p => p.productid == s.productid) = true := by
    unfold RUN_INSERT_PRODUCTS
    rw [List.any_append]
    by_cases hm : ps.any (fun p => p.productid == s.productid) = true
    · simp [hm]
    · have hmem : s ∈ (productSource os).filter
          (fun t => !ps.any (fun p => p.productid == t.productid)) :=
        List.mem_filter.mpr ⟨hs, by simp [hm]⟩
      have : ((productSource os).filter
          (fun t => !ps.any (fun p => p.productid == t.productid))).any
            (fun p => p.productid == s.productid) = true :=
        List.any_eq_true.mpr ⟨s, hmem, by simp⟩
      simp [this]
  simp [hany]

/-- After one geography merge, every distinct five-column source tuple is
present as the natural key of some target row. -/
theorem geography_second_filter_nil (gs : List GeoRow)
    (os : List CleanedRow) :
    (geographySource os).filter
      (fun s => !(RUN_INSERT_GEOGRAPHY gs os).any
        (fun g => g.cols == s)) = [] := by
  apply List.filter_eq_nil_iff.mpr
  intro s hs
  have hany : (RUN_INSERT_GEOGRAPHY gs os).any (fun g => g.cols == s)
      = true := by
    unfold RUN_INSERT_GEOGRAPHY
    rw [List.any_append]
    by_cases hm : gs.any (fun g => g.cols == s) = true
    · simp [hm]
    · have hmem : s ∈ (geographySource os).filter
          (fun t => !gs.any (fun g => g.cols == t)) :=
        List.mem_filter.mpr ⟨hs, by simp [hm]⟩
      have hmapped : ((((geographySource os).filter
            (fun t => !gs.any (fun g => g.cols == t))).enum.map
          (fun p => ({ geography_id := maxGeoId gs + 1 + p.1, cols := p.2 }
            : GeoRow))).map (fun g => g.cols))
          = (geographySource os).filter
              (fun t => !gs.any (fun g => g.cols == t)) := by
        rw [List.map_map]
        exact List.enum_map_snd ((geographySource os).filter
          (fun t => !gs.any (fun g => g.cols == t)))
      rw [← hmapped] at hmem
      obtain ⟨g, hg, hgc⟩ := List.mem_map.mp hmem
      have : (((geographySource os).filter
          (fun t => !gs.any (fun g => g.cols == t))).enum.map
            (fun p => ({ geography_id := maxGeoId gs + 1 + p.1, cols := p.2 }
              : GeoRow))).any (fun g => g.cols == s) = true :=
        List.any_eq_true.mpr ⟨g, hg, by simp [hgc]⟩
      simp [this]
  simp [hany]

/-- After one fact merge, every candidate source row's order id is present in
the target. -/
theorem fact_second_filter_nil (fs : List FactRow) (os : List CleanedRow)
    (cs : List CustomerRow) (ps : List ProductRow) (gs : List GeoRow) :
    (factSource os cs ps gs).filter
      (fun s => !(RUN_INSERT_FACT_ORDER fs os cs ps gs).any
        (fun f => f.orderid == s.orderid)) = [] := by
  apply List.filter_eq_nil_iff.mpr
  intro s hs
  have hany : (RUN_INSERT_FACT_ORDER fs os cs ps gs).any
      (fun f => f.orderid == s.orderid) = true := by
    unfold RUN_INSERT_FACT_ORDER
    rw [List.any_append]
    by_cases hm : fs.any (fun f => f.orderid == s.orderid) = true
    · simp [hm]
    · have hmem : s ∈ (factSource os cs ps gs).filter
          (fun t => !fs.any (fun f => f.orderid == t.orderid)) :=
        List.mem_filter.mpr ⟨hs, by simp [hm]⟩
      have : ((factSource os cs ps gs).filter
          (fun t => !fs.any (fun f => f.orderid == t.orderid))).any
            (fun f => f.orderid == s.orderid) = true :=
        List.any_eq_true.mpr ⟨s, hmem, by simp⟩
      simp [this]
  simp [hany]

/-- C4 counterexample: with an empty customers table and a cleaned-orders
table holding two distinct (customername, segment) combinations for customer
id `C1`, the two merge runs leave the table identical after the first run —
yet the single first run already inserted the key `C1` twice, so the claim's
"no natural key ever occurs twice" is false at this state. -/
theorem merge_duplicate_natural_key_cex :
    RUN_INSERT_CUSTOMERS (RUN_INSERT_CUSTOMERS [] dupCustOrders) dupCustOrders
        = RUN_INSERT_CUSTOMERS [] dupCustOrders
    ∧ ((RUN_INSERT_CUSTOMERS [] dupCustOrders).filter
        (fun c => c.customerid == "C1")).length = 2 := by
  refine ⟨by decide, by decide⟩

/-- C4 amended: running any of the four merge steps twice in succession with
the cleaned-orders table (and, for the fact step, the dimension tables)
unchanged between the runs leaves the target table identical to the state
after the first run — the second run inserts no row.  (The original claim's
further consequence that no natural key ever occurs twice fails when the
distinct source rows contain two tuples sharing a key, see the
counterexample.) -/
theorem merge_steps_idempotent (cs : List CustomerRow) (ps : List ProductRow)
    (gs : List GeoRow) (fs : List FactRow) (os : List CleanedRow) :
    RUN_INSERT_CUSTOMERS (RUN_INSERT_CUSTOMERS cs os) os
        = RUN_INSERT_CUSTOMERS cs os
    ∧ RUN_INSERT_PRODUCTS (RUN_INSERT_PRODUCTS ps os) os
        = RUN_INSERT_PRODUCTS ps os
    ∧ RUN_INSERT_GEOGRAPHY (RUN_INSERT_GEOGRAPHY gs os) os
        = RUN_INSERT_GEOGRAPHY gs os
    ∧ RUN_INSERT_FACT_ORDER (RUN_INSERT_FACT_ORDER fs os cs ps gs) os cs ps gs
        = RUN_INSERT_FACT_ORDER fs os cs ps gs := by
  refine ⟨?_, ?_, ?_, ?_⟩
  · have e : RUN_INSERT_CUSTOMERS (RUN_INSERT_CUSTOMERS cs os) os
        = (RUN_INSERT_CUSTOMERS cs os) ++ ((customerSource os).filter
          (fun s => !(RUN_INSERT_CUSTOMERS cs os).any
            (fun c => c.customerid == s.customerid))) := rfl
    rw [e, customers_second_filter_nil, List.append_nil]
  · have e : RUN_INSERT_PRODUCTS (RUN_INSERT_PRODUCTS ps os) os
        = (RUN_INSERT_PRODUCTS ps os) ++ ((productSource os).filter
          (fun s => !(RUN_INSERT_PRODUCTS ps os).any
            (fun p => p.productid == s.productid))) := rfl
    rw [e, products_second_filter_nil, List.append_nil]
  · have e : RUN_INSERT_GEOGRAPHY (RUN_INSERT_GEOGRAPHY gs os) os
        = (RUN_INSERT_GEOGRAPHY gs os) ++ (((geographySource os).filter
          (fun s => !(RUN_INSERT_GEOGRAPHY gs os).any
            (fun g => g.cols == s))).enum.map
          (fun p => ({ geography_id := maxGeoId (RUN_INSERT_GEOGRAPHY gs os)
              + 1 + p.1, cols := p.2 } : GeoRow))) := rfl
    rw [e, geography_second_filter_nil]
    simp
  · have e : RUN_INSERT_FACT_ORDER (RUN_INSERT_FACT_ORDER fs os cs ps gs)
          os cs ps gs
        = (RUN_INSERT_FACT_ORDER fs os cs ps gs)
          ++ ((factSource os cs ps gs).filter
            (fun s => !(RUN_INSERT_FACT_ORDER fs os cs ps gs).any
              (fun f => f.orderid == s.orderid))) := rfl
    rw [e, fact_second_filter_nil, List.append_nil]

/-- C10 counterexample: with an empty products table and a cleaned-orders
table holding two distinct (category, subcategory, productname) combinations
for product id `P1`, a single products merge inserts both rows: `P1` occurs
twice and both name combinations are recorded, contrary to the claim. -/
theorem products_merge_duplicate_key_cex :
    ((RUN_INSERT_PRODUCTS [] dupProdOrders).filter
        (fun p => p.productid == "P1")).length = 2
    ∧ (RUN_INSERT_PRODUCTS [] dupProdOrders).map (fun p => p.productname)
        = [sanitize ("Chair #1!"), sanitize ("Chair #1 Deluxe")] := by
  refine ⟨by decide, by decide⟩

/-- C10 amended: the customers merge matches on `customerid` alone and the
products merge on `productid` alone: a row added by the merge is a distinct
source tuple whose id matches no pre-existing dimension row, so a new
attribute combination for an id already present is never recorded; and ids
stay pairwise distinct provided the dimension had no duplicate ids and the
distinct source tuples carry at most one tuple per id.  (Without that
proviso a single run can insert the same id twice, see the
counterexample.) -/
theorem dimension_merge_key_semantics (cs : List CustomerRow)
    (ps : List ProductRow) (os : List CleanedRow) :
    (∀ x, x ∈ RUN_INSERT_CUSTOMERS cs os → x ∈ cs
        ∨ (x ∈ customerSource os ∧ ∀ c ∈ cs, c.customerid ≠ x.customerid))
    ∧ (∀ x, x ∈ RUN_INSERT_PRODUCTS ps os → x ∈ ps
        ∨ (x ∈ productSource os ∧ ∀ p ∈ ps, p.productid ≠ x.productid))
    ∧ ((cs.map (fun c => c.customerid)).Nodup →
        ((customerSource os).map (fun c => c.customerid)).Nodup →
        ((RUN_INSERT_CUSTOMERS cs os).map (fun c => c.customerid)).Nodup)
    ∧ ((ps.map (fun p => p.productid)).Nodup →
        ((productSource os).map (fun p => p.productid)).Nodup →
        ((RUN_INSERT_PRODUCTS ps os).map (fun p => p.productid)).Nodup) := by
  refine ⟨?_, ?_, ?_, ?_⟩
  · intro x hx
    rcases List.mem_append.mp hx with h | h
    · exact Or.inl h
    · obtain ⟨hsrc, hcond⟩ := List.mem_filter.mp h
      refine Or.inr ⟨hsrc, ?_⟩
      intro c hc
      simp only [Bool.not_eq_true', List.any_eq_false] at hcond
      have := hcond c hc
      simpa [beq_iff_eq] using this
  · intro x hx
    rcases List.mem_append.mp hx with h | h
    · exact Or.inl h
    · obtain ⟨hsrc, hcond⟩ := List.mem_filter.mp h
      refine Or.inr ⟨hsrc, ?_⟩
      intro p hp
      simp only [Bool.not_eq_true', List.any_eq_false] at hcond
      have := hcond p hp
      simpa [beq_iff_eq] using this
  · intro h1 h2
    unfold RUN_INSERT_CUSTOMERS
    rw [List.map_append]
    refine List.Nodup.append h1 ?_ ?_
    · exact h2.sublist (List.Sublist.map (fun c : CustomerRow => c.customerid)
        (List.filter_sublist (customerSource os)))
    · intro a ha hb
      obtain ⟨s, hsfil, hsa⟩ := List.mem_map.mp hb
      obtain ⟨c, hcmem, hca⟩ := List.mem_map.mp ha
      obtain ⟨_, hcond⟩ := List.mem_filter.mp hsfil
      simp only [Bool.not_eq_true', List.any_eq_false] at hcond
      have := hcond c hcmem
      rw [beq_iff_eq] at this
      exact this (hca.trans hsa.symm)
  · intro h1 h2
    unfold RUN_INSERT_PRODUCTS
    rw [List.map_append]
    refine List.Nodup.append h1 ?_ ?_
    · exact h2.sublist (List.Sublist.map (fun p : ProductRow => p.productid)
        (List.filter_sublist (productSource os)))
    · intro a ha hb
      obtain ⟨s, hsfil, hsa⟩ := List.mem_map.mp hb
      obtain ⟨p, hpmem, hpa⟩ := List.mem_map.mp ha
      obtain ⟨_, hcond⟩ := List.mem_filter.mp hsfil
      simp only [Bool.not_eq_true', List.any_eq_false] at hcond
      have := hcond p hpmem
      rw [beq_iff_eq] at this
      exact this (hpa.trans hsa.symm)

/-- Witness for the amended C10: merging a single-combination cleaned-orders
table into an empty products dimension leaves the product ids pairwise
distinct. -/
theorem dimension_merge_key_semantics_w :
    ((RUN_INSERT_PRODUCTS [] [cleanRow stgA ("Unmapped")]).map
      (fun p => p.productid)).Nodup :=
  (dimension_merge_key_semantics [] [] [cleanRow stgA ("Unmapped")]).2.2.2
    (by decide) (by decide)
